import Mathlib

/-!
Verification of the datasektionen/spam-rs email relay.

This file gives a shallow embedding of the request normalization and
message-assembly pipeline of the repository (src/main.rs, src/error.rs,
src/legacy/email.rs) and proves/refutes the frozen specification claims
about it.  Rust `String` values are modelled as lists of unicode scalar
values (`Str := List Char`, matching Rust `char`); byte-level operations
(UTF-8 encoding, base64) work on `List Nat` with every element < 256.
External collaborators (the markdown renderer, the handlebars registry,
the authorization service and the SES provider) are passed in as explicit
function/outcome parameters, and the two outbound network calls are
recorded in an explicit trace of `ExtCall` events.
-/

set_option maxHeartbeats 1000000

/-- Rust `String` / `&str`, as its sequence of unicode scalar values. -/
abbrev Str := List Char

/-- One character of Rust `char::is_ascii`: the scalar value is below 128. -/
def isAsciiChar (c : Char) : Bool := c.toNat < 128

/-- Rust `str::is_ascii`: every scalar value is below 128 (equivalently,
every byte of the UTF-8 representation is below 128). -/
def isAsciiStr (s : Str) : Bool := s.all isAsciiChar

/-- The Unicode White_Space property, as used by Rust `char::is_whitespace`
(and hence `str::trim`). -/
def isRustWhitespace (c : Char) : Bool :=
  c ∈ ['\u0009', '\u000A', '\u000B', '\u000C', '\u000D', ' ',
       '\u0085', ' ', ' ',
       ' ', ' ', ' ', ' ', ' ', ' ',
       ' ', ' ', ' ', ' ', ' ',
       ' ', ' ', ' ', ' ', '　']

/-- Rust `str::trim`: strip leading and trailing whitespace. -/
def trimStr (s : Str) : Str :=
  ((s.dropWhile isRustWhitespace).reverse.dropWhile isRustWhitespace).reverse

/-- Rust `str::trim_end_matches(c)` for a single-character pattern:
repeatedly strip the character from the end. -/
def trimEndMatches (c : Char) (s : Str) : Str :=
  (s.reverse.dropWhile (fun x => x = c)).reverse

/-- Rust `str::split(sep)` collected into a list: the (always non-empty)
list of segments between occurrences of the separator. -/
def splitAll (sep : Char) : Str → List Str
  | [] => [[]]
  | c :: rest =>
    if c = sep then [] :: splitAll sep rest
    else
      match splitAll sep rest with
      | [] => [[c]]
      | s :: ss => (c :: s) :: ss

/-- Rust `str::split_once(sep)`: the parts strictly before and after the
first occurrence of the separator, or `none` if it does not occur. -/
def splitOnce (sep : Char) : Str → Option (Str × Str)
  | [] => none
  | c :: rest =>
    if c = sep then some ([], rest)
    else (splitOnce sep rest).map (fun p => (c :: p.1, p.2))

/-- Rust `str::parse::<bool>()`: exactly the strings "true" and "false". -/
def parseBool (s : Str) : Option Bool :=
  if s = "true".toList then some true
  else if s = "false".toList then some false
  else none

/-- UTF-8 encoding of a single unicode scalar value (the byte
representation Rust strings are made of). -/
def utf8EncodeChar (c : Char) : List Nat :=
  let n := c.toNat
  if n < 128 then [n]
  else if n < 2048 then [192 + n / 64, 128 + n % 64]
  else if n < 65536 then [224 + n / 4096, 128 + n / 64 % 64, 128 + n % 64]
  else [240 + n / 262144, 128 + n / 4096 % 64, 128 + n / 64 % 64, 128 + n % 64]

/-- UTF-8 byte representation of a Rust string. -/
def utf8Encode (s : Str) : List Nat := (s.map utf8EncodeChar).flatten

/-- The standard base64 alphabet used by `base64::prelude::BASE64_STANDARD`. -/
def base64Table : List Char :=
  "ABCDEFGHIJKLMNOPQRSTUVWXYZabcdefghijklmnopqrstuvwxyz0123456789+/".toList

/-- The base64 character for a 6-bit value. -/
def b64Char (n : Nat) : Char := base64Table.getD n 'A'

/-- Index search helper for the base64 alphabet. -/
def charIndexAux (c : Char) : List Char → Nat → Option Nat
  | [], _ => none
  | x :: xs, i => if x = c then some i else charIndexAux c xs (i + 1)

/-- The 6-bit value of a base64 character (none for characters outside the
alphabet, in particular for the padding character). -/
def b64Index (c : Char) : Option Nat := charIndexAux c base64Table 0

/-- Standard base64 encoding with padding (`BASE64_STANDARD.encode`),
processing three input bytes into four output characters. -/
def base64Encode : List Nat → List Char
  | [] => []
  | [a] => [b64Char (a / 4), b64Char (a % 4 * 16), '=', '=']
  | [a, b] => [b64Char (a / 4), b64Char (a % 4 * 16 + b / 16), b64Char (b % 16 * 4), '=']
  | a :: b :: c :: rest =>
    b64Char (a / 4) :: b64Char (a % 4 * 16 + b / 16) ::
    b64Char (b % 16 * 4 + c / 64) :: b64Char (c % 64) :: base64Encode rest

/-- Standard base64 decoding with mandatory canonical padding
(`BASE64_STANDARD.decode`): input must be a sequence of 4-character
blocks; padding may appear only in the final block and non-zero trailing
bits are rejected, as in the crate's default strict configuration. -/
def base64Decode : List Char → Option (List Nat)
  | [] => some []
  | c1 :: c2 :: c3 :: c4 :: rest =>
    if c3 = '=' then
      if c4 = '=' ∧ rest = [] then
        match b64Index c1, b64Index c2 with
        | some a, some b => if b % 16 = 0 then some [a * 4 + b / 16] else none
        | _, _ => none
      else none
    else if c4 = '=' then
      if rest = [] then
        match b64Index c1, b64Index c2, b64Index c3 with
        | some a, some b, some c =>
          if c % 4 = 0 then some [a * 4 + b / 16, b % 16 * 16 + c / 4] else none
        | _, _, _ => none
      else none
    else
      match b64Index c1, b64Index c2, b64Index c3, b64Index c4 with
      | some a, some b, some c, some d =>
        match base64Decode rest with
        | some tail => some ((a * 4 + b / 16) :: (b % 16 * 16 + c / 4) :: (c % 4 * 64 + d) :: tail)
        | none => none
      | _, _, _, _ => none
  | _ => none

/-! ## Data model (src/error.rs, src/legacy/email.rs, src/main.rs) -/

/-- The error enumeration of src/error.rs, extended with the
InvalidAddress variant that src/legacy/email.rs constructs.  Formatted
error messages are carried as the formatted string. -/
inductive Error
  | EnvVarMissing (msg : Str)
  | InvalidEmailDomain (domain : Str)
  | InvalidContentType
  | ApiKeyInvalid
  | ApiKeyLookup (msg : Str)
  | MissingContent
  | EmailSend (msg : Str)
  | TemplateRender (msg : Str)
  | TemplateLoad (msg : Str)
  | Attachment (msg : Str)
  | NotASCII (msg : Str)
  | EmailBody (msg : Str)
  | InvalidAddress (msg : Str)
deriving DecidableEq, Repr

/-- EmailTemplateTypeLegacy (identical in src/main.rs and
src/legacy/email.rs). -/
inductive EmailTemplateTypeLegacy
  | Default
  | Metaspexet
  | NoTemplate
deriving DecidableEq, Repr

/-- The Display / From String impl of EmailTemplateTypeLegacy (the third
variant is called None in the source; it is renamed NoTemplate here to
avoid clashing with Option.none). -/
def templateName : EmailTemplateTypeLegacy → Str
  | .Default => "default".toList
  | .Metaspexet => "metaspexet".toList
  | .NoTemplate => "none".toList

/-- VerifiedDomains (src/main.rs lines 50-55). -/
inductive VerifiedDomains
  | Metaspexet
  | Datasektionen
  | Ddagen
deriving DecidableEq, Repr

/-- TryFrom String for VerifiedDomains (src/main.rs lines 57-68). -/
def VerifiedDomains.tryFrom (value : Str) : Except Error VerifiedDomains :=
  if value = "metaspexet.se".toList then .ok VerifiedDomains.Metaspexet
  else if value = "datasektionen.se".toList then .ok VerifiedDomains.Datasektionen
  else if value = "ddagen.se".toList then .ok VerifiedDomains.Ddagen
  else .error (.InvalidEmailDomain value)

/-- ContentData (src/main.rs lines 70-74), the structure passed to the
handlebars template. -/
structure ContentData where
  is_html : Bool
  content : Str
deriving DecidableEq, Repr

/-- EmailNameLegacy (src/main.rs lines 76-80 and src/legacy/email.rs
lines 39-43). -/
structure EmailNameLegacy where
  name : Str
  address : Str
deriving DecidableEq, Repr

/-- AttachmentLegacy (src/main.rs lines 82-88; src/legacy/email.rs names
the first field original_name via a serde rename). -/
structure AttachmentLegacy where
  originalname : Str
  mimetype : Str
  buffer : Str
  encoding : Str
deriving DecidableEq, Repr

/-- EmailRequestLegacy as defined in src/main.rs lines 90-106 (the shape
consumed by Client::send_email_legacy and the request handler). -/
structure EmailRequestLegacy where
  key : Str
  template : EmailTemplateTypeLegacy
  «from» : EmailNameLegacy
  reply_to : Option Str
  «to» : List Str
  subject : Str
  content : Option Str
  html : Option Str
  cc : Option (List EmailNameLegacy)
  bcc : Option (List Str)
  attachments : Option (List AttachmentLegacy)
deriving DecidableEq, Repr

/-! ## Address normalization (src/legacy/email.rs) -/

/-- AddressFieldLegacy (src/legacy/email.rs lines 45-49): a bare address
string or a display-name/address pair. -/
inductive AddressFieldLegacy
  | Address (addr : Str)
  | NameAndAddress (na : EmailNameLegacy)
deriving DecidableEq, Repr

/-- format_utf8 (src/legacy/email.rs lines 125-127): the RFC-2047-style
encoded word wrapping the base64 of the UTF-8 bytes of the trimmed name. -/
def format_utf8 (name : Str) : Str :=
  "=?UTF-8?B?".toList ++ base64Encode (utf8Encode (trimStr name)) ++ "?=".toList

/-- TryFrom of AddressFieldLegacy into a String (src/legacy/email.rs
lines 81-123): the single-field address normalization. -/
def normalizeAddressField : AddressFieldLegacy → Except Error Str
  | .Address addr =>
    if isAsciiStr addr then .ok addr
    else
      if addr.contains '<' then
        match splitOnce '<' addr with
        | none => .error (.InvalidAddress [])
        | some (name, addr2) =>
          if isAsciiStr addr2 then
            .ok (format_utf8 name ++ " <".toList ++ trimEndMatches '>' addr2 ++ ">".toList)
          else .error (.InvalidAddress "address is not ASCII".toList)
      else .error (.InvalidAddress "is not ASCII and is not in Name <addr> format".toList)
  | .NameAndAddress na =>
    let name := if isAsciiStr na.name then na.name else format_utf8 na.name
    if ¬ isAsciiStr na.address then .error (.NotASCII "address field".toList)
    else .ok (name ++ " <".toList ++ na.address ++ ">".toList)

/-- AddressFieldsLegacy (src/legacy/email.rs lines 136-140): one address
field or an ordered list of them. -/
inductive AddressFieldsLegacy
  | AddressField (a : AddressFieldLegacy)
  | AddressList (l : List AddressFieldLegacy)
deriving DecidableEq, Repr

/-- The Value::String branch of Deserialize for AddressFieldsLegacy
(src/legacy/email.rs lines 150-163): a string containing a comma is split
on commas into trimmed bare-address fields; otherwise it is one bare
field. -/
def parseAddressFieldsString (s : Str) : AddressFieldsLegacy :=
  if s.contains ',' then
    .AddressList ((splitAll ',' s).map (fun seg => .Address (trimStr seg)))
  else .AddressField (.Address s)

/-- Rust Iterator::collect over Result: apply f elementwise, stopping at
the first error. -/
def collectExcept (f : α → Except Error β) : List α → Except Error (List β)
  | [] => .ok []
  | a :: rest =>
    match f a with
    | .error e => .error e
    | .ok b =>
      match collectExcept f rest with
      | .error e => .error e
      | .ok bs => .ok (b :: bs)

/-- TryFrom of AddressFieldsLegacy into Vec of String (src/legacy/email.rs
lines 185-196): flatten a collection by normalizing every element. -/
def flattenAddressFields : AddressFieldsLegacy → Except Error (List Str)
  | .AddressField a =>
    match normalizeAddressField a with
    | .error e => .error e
    | .ok s => .ok [s]
  | .AddressList l => collectExcept normalizeAddressField l

/-! ## The send pipeline (src/main.rs) -/

/-- A decoded attachment as handed to the SES AttachmentBuilder
(src/main.rs lines 306-311); the content transfer encoding is always
Base64 and is omitted here. -/
structure SesAttachment where
  rawContent : List Nat
  fileName : Str
  contentType : Str
deriving DecidableEq, Repr

/-- The outbound SES send_email request assembled by
Client::send_email_legacy (src/main.rs lines 248-337): sender, destination
sets, reply-to, subject, the single HTML body and the attachment list. -/
structure SesRequest where
  fromAddress : Str
  toAddresses : List Str
  ccAddresses : Option (List Str)
  bccAddresses : Option (List Str)
  replyToAddresses : Option (List Str)
  subject : Str
  bodyHtml : Str
  attachments : Option (List SesAttachment)
deriving DecidableEq, Repr

/-- An outbound network call made while serving one request: the
authorization lookup against Hive, or the SES provider send. -/
inductive ExtCall
  | AuthCheck (key : Str)
  | ProviderSend (message : SesRequest)
deriving DecidableEq, Repr

/-- The domain extraction of Client::send_email_legacy (src/main.rs line
218): mail.from.address.split('@').nth(1), the second segment of
split('@'), i.e. the substring between the first at sign and the second
at sign or the end. -/
def senderDomain (address : Str) : Option Str :=
  (splitAll '@' address).get? 1

/-- The domain check at the top of Client::send_email_legacy (src/main.rs
lines 218-230): extract the sender domain, fail with the whole address if
there is none, then check it against VerifiedDomains. -/
def domainGuard (address : Str) : Except Error Unit :=
  match senderDomain address with
  | none => .error (.InvalidEmailDomain address)
  | some domain =>
    match VerifiedDomains.tryFrom domain with
    | .ok _ => .ok ()
    | .error _ => .error (.InvalidEmailDomain domain)

/-- Decidable equality for Except outcomes. -/
def exceptDecEq {ε α : Type} [DecidableEq ε] [DecidableEq α] : DecidableEq (Except ε α)
  | .ok a, .ok b =>
    if h : a = b then isTrue (by rw [h]) else isFalse (by intro hc; cases hc; exact h rfl)
  | .ok _, .error _ => isFalse (by intro hc; cases hc)
  | .error _, .ok _ => isFalse (by intro hc; cases hc)
  | .error e, .error f =>
    if h : e = f then isTrue (by rw [h]) else isFalse (by intro hc; cases hc; exact h rfl)

instance {ε α : Type} [DecidableEq ε] [DecidableEq α] : DecidableEq (Except ε α) :=
  exceptDecEq

/-- The per-attachment closure of Client::send_email_legacy (src/main.rs
lines 293-318): only the exact encoding tag "base64" is accepted; the
buffer is then decoded with standard base64 (the textual detail of the
crate's decode error is abstracted to a fixed message). -/
def decodeAttachment (att : AttachmentLegacy) : Except Error SesAttachment :=
  if att.encoding ≠ "base64".toList then
    .error (.Attachment ("Unsupported attachment encoding: ".toList ++ att.encoding))
  else
    match base64Decode att.buffer with
    | none =>
      .error (.Attachment ("Failed to decode attachment ".toList ++ att.originalname))
    | some data =>
      .ok { rawContent := data, fileName := att.originalname, contentType := att.mimetype }

/-- The attachment step of Client::send_email_legacy (src/main.rs lines
289-321): map the per-attachment decoding over the optional list,
collecting errors all-or-nothing (Option::map + collect + transpose). -/
def processAttachments : Option (List AttachmentLegacy) → Except Error (Option (List SesAttachment))
  | none => .ok none
  | some atts =>
    match collectExcept decodeAttachment atts with
    | .error e => .error e
    | .ok l => .ok (some l)

/-- Client::render_template (src/main.rs lines 378-393).  md is the
external markdown::to_html function; hb is the handlebars registry,
rendering a named template over a ContentData. -/
def renderTemplate (md : Str → Str) (hb : Str → ContentData → Except Str Str)
    (template : EmailTemplateTypeLegacy) (content : Str) (is_html : Bool) :
    Except Str Str :=
  let content := if is_html then content else md content
  hb (templateName template) { is_html := is_html, content := content }

/-- The body_text computation of Client::send_email_legacy (src/main.rs
lines 262-274): non-None template renders through render_template and
falls back to the untemplated content on failure; template None converts
plain text through markdown and passes HTML through. -/
def bodyText (md : Str → Str) (hb : Str → ContentData → Except Str Str)
    (template : EmailTemplateTypeLegacy) (content : Str) (is_html : Bool) : Str :=
  if template ≠ EmailTemplateTypeLegacy.NoTemplate then
    match renderTemplate md hb template content is_html with
    | .ok rendered => rendered
    | .error _ => content
  else if ¬ is_html then md content
  else content

/-- The content selection of Client::send_email_legacy (src/main.rs lines
239-245): html if present, else content, else the empty string. -/
def selectContent (mail : EmailRequestLegacy) : Str :=
  match mail.html with
  | some h => h
  | none =>
    match mail.content with
    | some t => t
    | none => []

/-- Client::send_email_legacy up to (but not including) the provider
network call (src/main.rs lines 217-327): domain guard, cc projection,
content selection, body rendering, attachment decoding and message
assembly.  The subject/body Content builders of the SDK cannot fail once
data is set and are modelled as total. -/
def sendEmailLegacyCore (md : Str → Str) (hb : Str → ContentData → Except Str Str)
    (mail : EmailRequestLegacy) : Except Error SesRequest :=
  match domainGuard mail.«from».address with
  | .error e => .error e
  | .ok _ =>
    let cc := mail.cc.map (fun ccList => ccList.map (fun x => x.address))
    let content := selectContent mail
    let is_html := mail.html.isSome
    let body_text := bodyText md hb mail.template content is_html
    match processAttachments mail.attachments with
    | .error e => .error e
    | .ok atts =>
      .ok { fromAddress := mail.«from».address
            toAddresses := mail.«to»
            ccAddresses := cc
            bccAddresses := mail.bcc
            replyToAddresses := mail.reply_to.map (fun a => [a])
            subject := mail.subject
            bodyHtml := body_text
            attachments := atts }

/-- Client::send_email_legacy (src/main.rs lines 217-346) including the
provider call: on successful assembly the SES send is performed (recorded
in the trace); provider is the outcome of that external call (message id
or error). -/
def sendEmailLegacy (md : Str → Str) (hb : Str → ContentData → Except Str Str)
    (provider : Except Str Str) (mail : EmailRequestLegacy) :
    List ExtCall × Except Error Str :=
  match sendEmailLegacyCore md hb mail with
  | .error e => ([], .error e)
  | .ok ses =>
    ([ExtCall.ProviderSend ses],
      match provider with
      | .error e => .error (.EmailSend ("Email failed to send: ".toList ++ e))
      | .ok messageId => .ok messageId)

/-- The send_mail_legacy request handler (src/main.rs lines 438-475),
starting from the parsed request (the serde parse and the HIVE_URL /
HIVE_SECRET environment lookups are assumed to have succeeded): it always
performs the authorization lookup first, parses its text as a bool,
rejects unauthorized keys, checks that html or content is present, and
only then runs Client::send_email_legacy.  auth is the outcome of the
external authorization HTTP call. -/
def sendMailLegacy (auth : Except Str Str) (provider : Except Str Str)
    (md : Str → Str) (hb : Str → ContentData → Except Str Str)
    (req : EmailRequestLegacy) : List ExtCall × Except Error Str :=
  let calls := [ExtCall.AuthCheck req.key]
  match auth with
  | .error e => (calls, .error (.ApiKeyLookup e))
  | .ok text =>
    match parseBool (trimStr text) with
    | none => (calls, .error (.ApiKeyLookup "Key parse failed".toList))
    | some false => (calls, .error .ApiKeyInvalid)
    | some true =>
      if req.html.isNone && req.content.isNone then
        (calls, .error .MissingContent)
      else
        let r := sendEmailLegacy md hb provider req
        (calls ++ r.1, r.2)

theorem char_toNat_lt (c : Char) : c.toNat < 1114112 := by
  have h := c.valid
  show c.val.toNat < 1114112
  rcases h with h | ⟨h1, h2⟩ <;> omega

theorem b64Char_index (n : Nat) (h : n < 64) : b64Index (b64Char n) = some n := by
  have key : ∀ m, m < 64 → b64Index (b64Char m) = some m := by decide
  exact key n h

theorem b64Char_ne_pad (n : Nat) : b64Char n ≠ '=' := by
  by_cases h : n < 64
  · have key : ∀ m, m < 64 → b64Char m ≠ '=' := by decide
    exact key n h
  · unfold b64Char
    rw [List.getD_eq_default]
    · decide
    · have : base64Table.length = 64 := by decide
      omega

theorem b64Char_ascii (n : Nat) : (b64Char n).toNat < 128 := by
  by_cases h : n < 64
  · have key : ∀ m, m < 64 → (b64Char m).toNat < 128 := by decide
    exact key n h
  · unfold b64Char
    rw [List.getD_eq_default]
    · decide
    · have : base64Table.length = 64 := by decide
      omega

theorem utf8EncodeChar_lt (c : Char) : ∀ b ∈ utf8EncodeChar c, b < 256 := by
  have hc := char_toNat_lt c
  simp only [utf8EncodeChar]
  split
  · intro b hb; simp at hb; omega
  · split
    · intro b hb; simp at hb
      rcases hb with h | h <;> omega
    · split
      · intro b hb; simp at hb
        rcases hb with h | h | h <;> omega
      · intro b hb; simp at hb
        rcases hb with h | h | h | h <;> omega

theorem utf8Encode_lt (s : Str) : ∀ b ∈ utf8Encode s, b < 256 := by
  intro b hb
  simp [utf8Encode, List.mem_flatten] at hb
  rcases hb with ⟨c, hc, hb⟩
  exact utf8EncodeChar_lt c b hb

theorem base64_roundtrip :
    ∀ l : List Nat, (∀ x ∈ l, x < 256) → base64Decode (base64Encode l) = some l
  | [] => fun _ => by simp [base64Encode, base64Decode]
  | [a] => fun h => by
    have ha : a < 256 := h a (by simp)
    have h1 : b64Index (b64Char (a / 4)) = some (a / 4) := b64Char_index _ (by omega)
    have h2 : b64Index (b64Char (a % 4 * 16)) = some (a % 4 * 16) := b64Char_index _ (by omega)
    simp only [base64Encode, base64Decode, h1, h2, and_self, if_true]
    rw [if_pos (by omega)]
    have e1 : a / 4 * 4 + a % 4 * 16 / 16 = a := by omega
    rw [e1]
  | [a, b] => fun h => by
    have ha : a < 256 := h a (by simp)
    have hb : b < 256 := h b (by simp)
    have h1 : b64Index (b64Char (a / 4)) = some (a / 4) := b64Char_index _ (by omega)
    have h2 : b64Index (b64Char (a % 4 * 16 + b / 16)) = some (a % 4 * 16 + b / 16) :=
      b64Char_index _ (by omega)
    have h3 : b64Index (b64Char (b % 16 * 4)) = some (b % 16 * 4) := b64Char_index _ (by omega)
    simp only [base64Encode, base64Decode, h1, h2, h3, if_true]
    rw [if_neg (b64Char_ne_pad _)]
    rw [if_pos (by omega)]
    have e1 : a / 4 * 4 + (a % 4 * 16 + b / 16) / 16 = a := by omega
    have e2 : (a % 4 * 16 + b / 16) % 16 * 16 + b % 16 * 4 / 4 = b := by omega
    rw [e1, e2]
  | a :: b :: c :: rest => fun h => by
    have ha : a < 256 := h a (by simp)
    have hb : b < 256 := h b (by simp)
    have hc : c < 256 := h c (by simp)
    have ih := base64_roundtrip rest (fun x hx => h x (by simp [hx]))
    have h1 : b64Index (b64Char (a / 4)) = some (a / 4) := b64Char_index _ (by omega)
    have h2 : b64Index (b64Char (a % 4 * 16 + b / 16)) = some (a % 4 * 16 + b / 16) :=
      b64Char_index _ (by omega)
    have h3 : b64Index (b64Char (b % 16 * 4 + c / 64)) = some (b % 16 * 4 + c / 64) :=
      b64Char_index _ (by omega)
    have h4 : b64Index (b64Char (c % 64)) = some (c % 64) := b64Char_index _ (by omega)
    simp only [base64Encode, base64Decode, h1, h2, h3, h4]
    rw [if_neg (b64Char_ne_pad _), if_neg (b64Char_ne_pad _), ih]
    have e1 : a / 4 * 4 + (a % 4 * 16 + b / 16) / 16 = a := by omega
    have e2 : (a % 4 * 16 + b / 16) % 16 * 16 + (b % 16 * 4 + c / 64) / 4 = b := by omega
    have e3 : (b % 16 * 4 + c / 64) % 4 * 64 + c % 64 = c := by omega
    rw [e1, e2, e3]

theorem base64Encode_ascii : ∀ l : List Nat, isAsciiStr (base64Encode l) = true
  | [] => by simp [base64Encode, isAsciiStr]
  | [a] => by
    simp [base64Encode, isAsciiStr, List.all_cons, isAsciiChar]
    exact ⟨b64Char_ascii _, b64Char_ascii _⟩
  | [a, b] => by
    simp [base64Encode, isAsciiStr, List.all_cons, isAsciiChar]
    exact ⟨b64Char_ascii _, b64Char_ascii _, b64Char_ascii _⟩
  | a :: b :: c :: rest => by
    have ih := base64Encode_ascii rest
    simp [base64Encode, isAsciiStr, List.all_cons, isAsciiChar] at ih ⊢
    exact ⟨b64Char_ascii _, b64Char_ascii _, b64Char_ascii _, b64Char_ascii _, ih⟩

theorem isAsciiStr_append (s t : Str) :
    isAsciiStr (s ++ t) = (isAsciiStr s && isAsciiStr t) := by
  simp [isAsciiStr, List.all_append]

theorem format_utf8_ascii (name : Str) : isAsciiStr (format_utf8 name) = true := by
  simp only [format_utf8, isAsciiStr_append, Bool.and_eq_true]
  refine ⟨⟨by decide, base64Encode_ascii _⟩, by decide⟩

theorem trimEndMatches_subset (c : Char) (s : Str) :
    ∀ x ∈ trimEndMatches c s, x ∈ s := by
  intro x hx
  simp only [trimEndMatches, List.mem_reverse] at hx
  have := (List.dropWhile_sublist (l := s.reverse) (p := fun y => y = c)).mem hx
  simpa using this

theorem splitAll_length (sep : Char) :
    ∀ s : Str, (splitAll sep s).length = s.count sep + 1
  | [] => by simp [splitAll]
  | c :: rest => by
    by_cases h : c = sep
    · simp [splitAll, h, List.count_cons, splitAll_length sep rest]
    · have ih := splitAll_length sep rest
      have hne : (splitAll sep rest) ≠ [] := by
        intro hcontra
        rw [hcontra] at ih
        simp at ih
      simp only [splitAll, if_neg h]
      match hsplit : splitAll sep rest with
      | [] => exact absurd hsplit hne
      | s :: ss =>
        rw [hsplit] at ih
        simp only [List.length_cons] at ih ⊢
        have : (c = sep) = False := by simp [h]
        simp [List.count_cons, h, ih]

/-- The fixed allowlist of verified sending domains, as the three match
arms of VerifiedDomains::try_from. -/
def allowedDomains : List Str :=
  ["metaspexet.se".toList, "datasektionen.se".toList, "ddagen.se".toList]

theorem tryFrom_ok_iff (d : Str) :
    (∃ v, VerifiedDomains.tryFrom d = .ok v) ↔ d ∈ allowedDomains := by
  unfold VerifiedDomains.tryFrom allowedDomains
  split_ifs with h1 h2 h3 <;> simp_all

theorem collectExcept_ok_iff (f : α → Except Error β) :
    ∀ (l : List α) (out : List β),
      collectExcept f l = .ok out ↔ List.Forall₂ (fun a b => f a = .ok b) l out
  | [], out => by
    simp only [collectExcept]
    constructor
    · intro h
      cases h
      exact List.Forall₂.nil
    · intro h
      cases h
      rfl
  | a :: rest, out => by
    constructor
    · intro h
      simp only [collectExcept] at h
      match hfa : f a with
      | .error e => rw [hfa] at h; cases h
      | .ok b =>
        rw [hfa] at h
        match hrest : collectExcept f rest with
        | .error e => rw [hrest] at h; cases h
        | .ok bs =>
          rw [hrest] at h
          cases h
          exact List.Forall₂.cons hfa ((collectExcept_ok_iff f rest bs).mp hrest)
    · intro h
      cases h with
      | cons hab hrest =>
        simp only [collectExcept, hab, (collectExcept_ok_iff f rest _).mpr hrest]

theorem collectExcept_first_error (f : α → Except Error β) (a : α) (e : Error)
    (ha : f a = .error e) :
    ∀ (l₁ l₂ : List α), (∀ x ∈ l₁, ∃ y, f x = .ok y) →
      collectExcept f (l₁ ++ a :: l₂) = .error e
  | [], l₂, _ => by simp [collectExcept, ha]
  | x :: rest, l₂, h => by
    obtain ⟨y, hy⟩ := h x (by simp)
    have ih := collectExcept_first_error f a e ha rest l₂ (fun z hz => h z (by simp [hz]))
    simp [collectExcept, hy, ih]

/-! ## Claims -/

/-- Modelled from the claim wording of C2, for comparison with the code:
the substring after the LAST at sign of the address, if any. -/
def lastAtDomain (address : Str) : Option Str :=
  if address.contains '@' then (splitAll '@' address).getLast? else none

/-- C1 (counterexample): the encoding tag is not matched case-insensitively
and there is no utf-8 family: the tag "utf-8" is rejected rather than
passing the text bytes through, and the tag "BASE64" is rejected rather
than decoding as base64. -/
theorem claim_C1_counterexample :
    decodeAttachment
      { originalname := "a.txt".toList, mimetype := "text/plain".toList,
        buffer := "hello".toList, encoding := "utf-8".toList }
      = .error (.Attachment "Unsupported attachment encoding: utf-8".toList) ∧
    decodeAttachment
      { originalname := "a.txt".toList, mimetype := "text/plain".toList,
        buffer := "aGVsbG8=".toList, encoding := "BASE64".toList }
      = .error (.Attachment "Unsupported attachment encoding: BASE64".toList) := by
  decide

/-- C1 (amended): the encoding tag is compared case-sensitively against
exactly "base64"; that tag decodes the buffer with standard base64 (so a
buffer that is the base64 encoding of some bytes yields exactly those
bytes, with the file name and MIME type carried over), and every other
tag — including all case variants and any utf-8 tag — fails the
attachment step with an error naming the offending tag. -/
theorem claim_C1_amended (att : AttachmentLegacy) :
    (∀ data : List Nat, (∀ x ∈ data, x < 256) → att.encoding = "base64".toList →
      att.buffer = base64Encode data →
      decodeAttachment att
        = .ok { rawContent := data, fileName := att.originalname,
                contentType := att.mimetype }) ∧
    (att.encoding ≠ "base64".toList →
      decodeAttachment att
        = .error (.Attachment ("Unsupported attachment encoding: ".toList ++ att.encoding))) := by
  constructor
  · intro data hdata henc hbuf
    simp [decodeAttachment, henc, hbuf, base64_roundtrip data hdata]
  · intro h
    simp only [decodeAttachment, ne_eq, h, not_false_iff, if_pos]

/-- C1 witness: the amended claim applied to the attachment of the
repository's own test (document.pdf, base64 "JVBERi0xLjQ="). -/
theorem claim_C1_amended_witness :
    decodeAttachment
      { originalname := "document.pdf".toList, mimetype := "application/pdf".toList,
        buffer := "JVBERi0xLjQ=".toList, encoding := "base64".toList }
      = .ok { rawContent := [37, 80, 68, 70, 45, 49, 46, 52],
              fileName := "document.pdf".toList,
              contentType := "application/pdf".toList } :=
  (claim_C1_amended _).1 [37, 80, 68, 70, 45, 49, 46, 52] (by decide) (by decide) (by decide)

/-- C2 (counterexample): the Domain Guard does not check the substring
after the last at sign: for a@datasektionen.se@evil.com that substring is
evil.com, which is not in the allowlist, so the claim demands a failure,
yet the code accepts the address (it checks the segment between the first
and the second at sign). -/
theorem claim_C2_counterexample :
    lastAtDomain "a@datasektionen.se@evil.com".toList = some "evil.com".toList ∧
    "evil.com".toList ∉ allowedDomains ∧
    domainGuard "a@datasektionen.se@evil.com".toList = .ok () := by
  decide

/-- C2 (amended): the Domain Guard checks the second segment of
split('@'), i.e. the substring between the first and second at sign,
compared case-sensitively against the fixed allowlist; an address with no
at sign fails with the invalid-email-domain error carrying the whole
address, and an address whose extracted segment is not in the allowlist
fails with the invalid-email-domain error carrying that segment. -/
theorem claim_C2_amended (address : Str) :
    (senderDomain address = none →
      domainGuard address = .error (.InvalidEmailDomain address)) ∧
    (∀ d, senderDomain address = some d →
      (d ∈ allowedDomains → domainGuard address = .ok ()) ∧
      (d ∉ allowedDomains → domainGuard address = .error (.InvalidEmailDomain d))) := by
  constructor
  · intro h
    simp [domainGuard, h]
  · intro d hd
    constructor
    · intro hmem
      obtain ⟨v, hv⟩ := (tryFrom_ok_iff d).mpr hmem
      simp [domainGuard, hd, hv]
    · intro hmem
      match htf : VerifiedDomains.tryFrom d with
      | .ok v => exact absurd ((tryFrom_ok_iff d).mp ⟨v, htf⟩) hmem
      | .error e2 => simp [domainGuard, hd, htf]

/-- C2 witness: the amended claim applied to a member domain, a
non-member domain and an address without an at sign. -/
theorem claim_C2_amended_witness :
    domainGuard "sender@datasektionen.se".toList = .ok () ∧
    domainGuard "sender@example.com".toList
      = .error (.InvalidEmailDomain "example.com".toList) ∧
    domainGuard "nodomain".toList = .error (.InvalidEmailDomain "nodomain".toList) :=
  ⟨((claim_C2_amended ("sender@datasektionen.se".toList)).2
      ("datasektionen.se".toList) (by decide)).1 (by decide),
   ((claim_C2_amended ("sender@example.com".toList)).2
      ("example.com".toList) (by decide)).2 (by decide),
   (claim_C2_amended ("nodomain".toList)).1 (by decide)⟩

/-- C8: normalization is the identity on ASCII bare address strings. -/
theorem claim_C8 (addr : Str) (h : isAsciiStr addr = true) :
    normalizeAddressField (.Address addr) = .ok addr := by
  simp [normalizeAddressField, h]

/-- C8 witness: the identity at a concrete ASCII bare address. -/
theorem claim_C8_witness :
    isAsciiStr "recipient@datasektionen.se".toList = true ∧
    normalizeAddressField (.Address "recipient@datasektionen.se".toList)
      = .ok "recipient@datasektionen.se".toList :=
  ⟨by decide, claim_C8 _ (by decide)⟩

theorem isAsciiStr_trimEndMatches (c : Char) (s : Str) (h : isAsciiStr s = true) :
    isAsciiStr (trimEndMatches c s) = true := by
  simp only [isAsciiStr, List.all_eq_true] at h ⊢
  intro x hx
  exact h x (trimEndMatches_subset c s x hx)

/-- C9: whenever single-field normalization succeeds, the returned
address string is pure ASCII. -/
theorem claim_C9 (f : AddressFieldLegacy) (s : Str)
    (h : normalizeAddressField f = .ok s) : isAsciiStr s = true := by
  cases f with
  | Address addr =>
    simp only [normalizeAddressField] at h
    split at h
    · cases h
      assumption
    · split at h
      · split at h
        · cases h
        · next name addr2 hsp =>
          split at h
          · next ha2 =>
            cases h
            simp only [isAsciiStr_append, Bool.and_eq_true]
            exact ⟨⟨⟨format_utf8_ascii name, by decide⟩,
              isAsciiStr_trimEndMatches '>' addr2 ha2⟩, by decide⟩
          · cases h
      · cases h
  | NameAndAddress na =>
    simp only [normalizeAddressField] at h
    split at h
    · cases h
    · next hcond =>
      have ha : isAsciiStr na.address = true := by
        by_cases hx : isAsciiStr na.address = true
        · exact hx
        · exact absurd hx (by simpa using hcond)
      cases h
      simp only [isAsciiStr_append, Bool.and_eq_true]
      refine ⟨⟨⟨?_, by decide⟩, ha⟩, by decide⟩
      by_cases hn : isAsciiStr na.name = true
      · simp [hn]
      · simp [hn, format_utf8_ascii]

/-- C9 witness: the invariant applied to the repository's own utf8 test
case. -/
theorem claim_C9_witness :
    normalizeAddressField
        (.NameAndAddress { name := "åäö".toList, address := "sender@datasektionen.se".toList })
      = .ok "=?UTF-8?B?w6XDpMO2?= <sender@datasektionen.se>".toList ∧
    isAsciiStr "=?UTF-8?B?w6XDpMO2?= <sender@datasektionen.se>".toList = true :=
  ⟨by decide,
   claim_C9
     (.NameAndAddress { name := "åäö".toList, address := "sender@datasektionen.se".toList })
     _ (by decide)⟩

/-- C4 (counterexample): for a display name with surrounding whitespace
the encoded word carries the base64 of the TRIMMED name, not of the
original name: for the name consisting of aao-umlauts followed by a space
the produced string differs from the claimed one, and the base64 payload
decodes to the trimmed bytes, which are not the original bytes of the
display name. -/
theorem claim_C4_counterexample :
    normalizeAddressField
        (.NameAndAddress { name := "åäö ".toList, address := "a@b.se".toList })
      = .ok "=?UTF-8?B?w6XDpMO2?= <a@b.se>".toList ∧
    "=?UTF-8?B?w6XDpMO2?= <a@b.se>".toList
      ≠ "=?UTF-8?B?".toList ++ base64Encode (utf8Encode "åäö ".toList) ++ "?= <a@b.se>".toList ∧
    base64Decode "w6XDpMO2".toList = some (utf8Encode "åäö".toList) ∧
    utf8Encode "åäö".toList ≠ utf8Encode "åäö ".toList := by
  decide

/-- C4 (amended): for every non-ASCII display name paired with an ASCII
address, normalization produces the encoded word of the TRIMMED display
name followed by the angle-bracketed address, and decoding the base64
payload of the encoded word recovers the UTF-8 bytes of the trimmed
display name; in particular the repository's example normalizes as the
claim states. -/
theorem claim_C4_amended (name addr : Str)
    (hname : isAsciiStr name = false) (haddr : isAsciiStr addr = true) :
    normalizeAddressField (.NameAndAddress { name := name, address := addr })
      = .ok (("=?UTF-8?B?".toList ++ base64Encode (utf8Encode (trimStr name)) ++ "?=".toList)
          ++ " <".toList ++ addr ++ ">".toList) ∧
    base64Decode (base64Encode (utf8Encode (trimStr name)))
      = some (utf8Encode (trimStr name)) ∧
    normalizeAddressField (.Address "åäö <sender@datasektionen.se>".toList)
      = .ok "=?UTF-8?B?w6XDpMO2?= <sender@datasektionen.se>".toList := by
  refine ⟨?_, base64_roundtrip _ (utf8Encode_lt _), by decide⟩
  simp [normalizeAddressField, hname, haddr, format_utf8]

/-- C4 witness: the amended claim applied to the repository's own test
name and address. -/
theorem claim_C4_amended_witness :
    normalizeAddressField
        (.NameAndAddress { name := "åäö".toList, address := "sender@datasektionen.se".toList })
      = .ok (("=?UTF-8?B?".toList
              ++ base64Encode (utf8Encode (trimStr "åäö".toList)) ++ "?=".toList)
          ++ " <".toList ++ "sender@datasektionen.se".toList ++ ">".toList) :=
  (claim_C4_amended "åäö".toList "sender@datasektionen.se".toList
    (by decide) (by decide)).1

/-- C5: a comma-containing address string parses into exactly one trimmed
bare field per comma-separated segment (one more segment than commas),
and flattening a collection normalizes elementwise in input order,
succeeding exactly when every element normalizes (Forall2 ties output
positions to input positions) and returning the error of the first
invalid element otherwise. -/
theorem claim_C5 (s : Str) (hs : s.contains ',' = true) :
    parseAddressFieldsString s
      = .AddressList ((splitAll ',' s).map (fun seg => .Address (trimStr seg))) ∧
    ((splitAll ',' s).map
        (fun seg => AddressFieldLegacy.Address (trimStr seg))).length
      = s.count ',' + 1 ∧
    (∀ (l : List AddressFieldLegacy) (out : List Str),
      flattenAddressFields (.AddressList l) = .ok out ↔
        List.Forall₂ (fun a b => normalizeAddressField a = .ok b) l out) ∧
    (∀ (l₁ l₂ : List AddressFieldLegacy) (a : AddressFieldLegacy) (e : Error),
      (∀ x ∈ l₁, ∃ y, normalizeAddressField x = .ok y) →
      normalizeAddressField a = .error e →
      flattenAddressFields (.AddressList (l₁ ++ a :: l₂)) = .error e) := by
  have hmem : ',' ∈ s := by simpa using hs
  refine ⟨by simp [parseAddressFieldsString, hs, hmem], ?_, ?_, ?_⟩
  · simp [splitAll_length]
  · intro l out
    simpa [flattenAddressFields] using collectExcept_ok_iff normalizeAddressField l out
  · intro l₁ l₂ a e h1 h2
    simpa [flattenAddressFields] using
      collectExcept_first_error normalizeAddressField a e h2 l₁ l₂ h1

/-- C5 witness: the spec's own example string with two segments, and a
list whose second element is invalid, failing with that element's error. -/
theorem claim_C5_witness :
    "a@x.se, Name <b@x.se>".toList.contains ',' = true ∧
    parseAddressFieldsString "a@x.se, Name <b@x.se>".toList
      = .AddressList
          ((splitAll ',' "a@x.se, Name <b@x.se>".toList).map
            (fun seg => .Address (trimStr seg))) :=
  ⟨by decide, (claim_C5 "a@x.se, Name <b@x.se>".toList (by decide)).1⟩

/-- A concrete request whose sender domain (example.com) is not in the
allowlist, used for claim C3. -/
def reqC3 : EmailRequestLegacy :=
  { key := "k".toList, template := .Default,
    «from» := { name := "A".toList, address := "a@example.com".toList },
    reply_to := none, «to» := [], subject := "s".toList,
    content := none, html := some "<p>hi</p>".toList,
    cc := none, bcc := none, attachments := none }

/-- C3 (counterexample): for a request whose sender domain is not in the
allowlist, the handler still performs the external authorization check
first: with the authorization service answering false, the request fails
with the api-key error, not the invalid-domain error, and the trace shows
the authorization call was made. -/
theorem claim_C3_counterexample :
    sendMailLegacy (.ok "false".toList) (.ok "mid".toList) (fun s => s)
        (fun _ _ => .error []) reqC3
      = ([ExtCall.AuthCheck "k".toList], .error .ApiKeyInvalid) ∧
    domainGuard "a@example.com".toList
      = .error (.InvalidEmailDomain "example.com".toList) := by
  decide

/-- C3 (amended): for every request whose sender domain fails the Domain
Guard, the SES provider send is never called, and the request fails with
the invalid-domain error whenever it gets past the authorization check
(which the handler always performs first) and the content-presence
check. -/
theorem claim_C3_amended (req : EmailRequestLegacy) (e : Error)
    (hdom : domainGuard req.«from».address = .error e)
    (auth provider : Except Str Str) (md : Str → Str)
    (hb : Str → ContentData → Except Str Str) :
    (∀ ses, ExtCall.ProviderSend ses ∉ (sendMailLegacy auth provider md hb req).1) ∧
    (∀ text, auth = .ok text → parseBool (trimStr text) = some true →
      (req.html.isNone && req.content.isNone) = false →
      (sendMailLegacy auth provider md hb req).2 = .error e) := by
  have hcore : sendEmailLegacyCore md hb req = .error e := by
    simp [sendEmailLegacyCore, hdom]
  have hsend : sendEmailLegacy md hb provider req = ([], .error e) := by
    simp [sendEmailLegacy, hcore]
  constructor
  · intro ses hmem
    match auth with
    | .error ae => simp [sendMailLegacy] at hmem
    | .ok text =>
      match hpb : parseBool (trimStr text) with
      | none => simp [sendMailLegacy, hpb] at hmem
      | some false => simp [sendMailLegacy, hpb] at hmem
      | some true =>
        by_cases hmc : (req.html.isNone && req.content.isNone) = true
        · simp [sendMailLegacy, hpb, hmc] at hmem
        · simp [sendMailLegacy, hpb, hmc, hsend] at hmem
  · intro text hauth hpb hmc
    subst hauth
    simp [sendMailLegacy, hpb, hmc, hsend]

/-- C3 witness: the amended claim applied to the concrete bad-domain
request with a succeeding authorization check. -/
theorem claim_C3_amended_witness :
    (sendMailLegacy (.ok "true".toList) (.ok "mid".toList) (fun s => s)
        (fun _ _ => .error []) reqC3).2
      = .error (.InvalidEmailDomain "example.com".toList) :=
  (claim_C3_amended reqC3 (.InvalidEmailDomain "example.com".toList) (by decide)
      (.ok "true".toList) (.ok "mid".toList) (fun s => s) (fun _ _ => .error [])).2
    "true".toList rfl (by decide) (by decide)

/-- A concrete request with neither html nor content, used for claim C6. -/
def reqC6 : EmailRequestLegacy :=
  { key := "k".toList, template := .Default,
    «from» := { name := "A".toList, address := "sender@datasektionen.se".toList },
    reply_to := none, «to» := [], subject := "s".toList,
    content := none, html := none,
    cc := none, bcc := none, attachments := none }

/-- C6: a request with neither content nor html never reaches the SES
provider send and never succeeds, and it fails with the missing-content
validation error whenever the authorization check passes (the handler
performs that check first). -/
theorem claim_C6 (req : EmailRequestLegacy) (h1 : req.html = none)
    (h2 : req.content = none) (auth provider : Except Str Str) (md : Str → Str)
    (hb : Str → ContentData → Except Str Str) :
    (∀ ses, ExtCall.ProviderSend ses ∉ (sendMailLegacy auth provider md hb req).1) ∧
    (∀ mid, (sendMailLegacy auth provider md hb req).2 ≠ .ok mid) ∧
    (∀ text, auth = .ok text → parseBool (trimStr text) = some true →
      (sendMailLegacy auth provider md hb req).2 = .error Error.MissingContent) := by
  have hmc : (req.html.isNone && req.content.isNone) = true := by simp [h1, h2]
  refine ⟨?_, ?_, ?_⟩
  · intro ses hmem
    match auth with
    | .error ae => simp [sendMailLegacy] at hmem
    | .ok text =>
      match hpb : parseBool (trimStr text) with
      | none => simp [sendMailLegacy, hpb] at hmem
      | some false => simp [sendMailLegacy, hpb] at hmem
      | some true => simp [sendMailLegacy, hpb, hmc] at hmem
  · intro mid hok
    match auth with
    | .error ae => simp [sendMailLegacy] at hok
    | .ok text =>
      match hpb : parseBool (trimStr text) with
      | none => simp [sendMailLegacy, hpb] at hok
      | some false => simp [sendMailLegacy, hpb] at hok
      | some true => simp [sendMailLegacy, hpb, hmc] at hok
  · intro text hauth hpb
    subst hauth
    simp [sendMailLegacy, hpb, hmc]

/-- C6 witness: the concrete no-content request with a succeeding
authorization check fails with the missing-content error. -/
theorem claim_C6_witness :
    (sendMailLegacy (.ok "true".toList) (.ok "mid".toList) (fun s => s)
        (fun _ _ => .error []) reqC6).2 = .error Error.MissingContent :=
  (claim_C6 reqC6 rfl rfl (.ok "true".toList) (.ok "mid".toList) (fun s => s)
      (fun _ _ => .error [])).2.2 "true".toList rfl (by decide)

/-- C7: with a non-None template, a render failure never aborts the
request: provided the domain guard and the attachment step pass, the
pipeline proceeds to exactly one SES provider send whose body is the
untemplated content, and the request's outcome is the provider's
outcome. -/
theorem claim_C7 (mail : EmailRequestLegacy) (md : Str → Str)
    (hb : Str → ContentData → Except Str Str) (provider : Except Str Str)
    (e : Str) (atts : Option (List SesAttachment))
    (htpl : mail.template ≠ EmailTemplateTypeLegacy.NoTemplate)
    (hrender : renderTemplate md hb mail.template (selectContent mail) mail.html.isSome
      = .error e)
    (hdom : domainGuard mail.«from».address = .ok ())
    (hatt : processAttachments mail.attachments = .ok atts) :
    ∃ ses : SesRequest,
      sendEmailLegacy md hb provider mail
        = ([ExtCall.ProviderSend ses],
           match provider with
           | .ok mid => .ok mid
           | .error pe => .error (.EmailSend ("Email failed to send: ".toList ++ pe))) ∧
      ses.bodyHtml = selectContent mail := by
  have hbody : bodyText md hb mail.template (selectContent mail) mail.html.isSome
      = selectContent mail := by
    simp [bodyText, htpl, hrender]
  have hcore : sendEmailLegacyCore md hb mail
      = .ok { fromAddress := mail.«from».address
              toAddresses := mail.«to»
              ccAddresses := mail.cc.map (fun ccList => ccList.map (fun x => x.address))
              bccAddresses := mail.bcc
              replyToAddresses := mail.reply_to.map (fun a => [a])
              subject := mail.subject
              bodyHtml := selectContent mail
              attachments := atts } := by
    simp [sendEmailLegacyCore, hdom, hatt, hbody]
  refine ⟨{ fromAddress := mail.«from».address
            toAddresses := mail.«to»
            ccAddresses := mail.cc.map (fun ccList => ccList.map (fun x => x.address))
            bccAddresses := mail.bcc
            replyToAddresses := mail.reply_to.map (fun a => [a])
            subject := mail.subject
            bodyHtml := selectContent mail
            attachments := atts }, ?_, rfl⟩
  cases provider with
  | ok mid => simp [sendEmailLegacy, hcore]
  | error pe => simp [sendEmailLegacy, hcore]

/-- A concrete plain-text request with the default template, used for
claims C7 and C10 need separate requests; this one is for C7. -/
def reqC7 : EmailRequestLegacy :=
  { key := "k".toList, template := .Default,
    «from» := { name := "Sender".toList, address := "sender@datasektionen.se".toList },
    reply_to := none, «to» := ["r@x.se".toList], subject := "Hello".toList,
    content := some "hello".toList, html := none,
    cc := none, bcc := none, attachments := none }

/-- C7 witness: with a handlebars registry that always fails, the
concrete request still reaches the provider send and returns the
provider's message id. -/
theorem claim_C7_witness :
    (sendEmailLegacy (fun s => s) (fun _ _ => .error "boom".toList)
        (.ok "mid".toList) reqC7).1 ≠ [] ∧
    (sendEmailLegacy (fun s => s) (fun _ _ => .error "boom".toList)
        (.ok "mid".toList) reqC7).2 = .ok "mid".toList := by
  obtain ⟨ses, heq, hbody⟩ := claim_C7 reqC7 (fun s => s)
    (fun _ _ => .error "boom".toList) (.ok "mid".toList) "boom".toList none
    (by decide) (by decide) (by decide) (by decide)
  rw [heq]
  simp

/-- A concrete plain-text request with the default template, used for
claim C10. -/
def reqC10 : EmailRequestLegacy :=
  { key := "k".toList, template := .Default,
    «from» := { name := "Sender".toList, address := "sender@datasektionen.se".toList },
    reply_to := none, «to» := ["r@x.se".toList], subject := "Hello".toList,
    content := some "plain *text*".toList, html := none,
    cc := none, bcc := none, attachments := none }

/-- C10: for a plain-text request (content only, no html) with a non-None
template, a failed render falls back to the RAW plain-text content with
no markdown conversion (the result does not depend on the markdown
renderer at all), even though the successful render path hands the
handlebars registry the markdown-converted content and the template-None
path returns the markdown-converted content. -/
theorem claim_C10 (mail : EmailRequestLegacy) (md : Str → Str)
    (hb : Str → ContentData → Except Str Str) (c : Str)
    (hh : mail.html = none) (hc : mail.content = some c)
    (htpl : mail.template ≠ EmailTemplateTypeLegacy.NoTemplate) :
    (∀ e, hb (templateName mail.template) { is_html := false, content := md c }
        = .error e →
      bodyText md hb mail.template (selectContent mail) mail.html.isSome = c) ∧
    (∀ r, hb (templateName mail.template) { is_html := false, content := md c }
        = .ok r →
      bodyText md hb mail.template (selectContent mail) mail.html.isSome = r) ∧
    bodyText md hb EmailTemplateTypeLegacy.NoTemplate c false = md c := by
  have hsel : selectContent mail = c := by simp [selectContent, hh, hc]
  have hishtml : mail.html.isSome = false := by simp [hh]
  refine ⟨?_, ?_, ?_⟩
  · intro e he
    simp [bodyText, htpl, renderTemplate, hsel, hishtml, he]
  · intro r hr
    simp [bodyText, htpl, renderTemplate, hsel, hishtml, hr]
  · simp [bodyText]

/-- C10 witness: with an always-failing handlebars registry, the fallback
body of the concrete plain-text request is the raw content, while the
template-None path converts it through the markdown renderer. -/
theorem claim_C10_witness :
    bodyText (fun s => s ++ "!".toList) (fun _ _ => .error "boom".toList)
        EmailTemplateTypeLegacy.Default (selectContent reqC10) reqC10.html.isSome
      = "plain *text*".toList ∧
    bodyText (fun s => s ++ "!".toList) (fun _ _ => .error "boom".toList)
        EmailTemplateTypeLegacy.NoTemplate "plain *text*".toList false
      = "plain *text*!".toList :=
  ⟨(claim_C10 reqC10 (fun s => s ++ "!".toList) (fun _ _ => .error "boom".toList)
      "plain *text*".toList rfl rfl (by decide)).1 "boom".toList rfl,
   ((claim_C10 reqC10 (fun s => s ++ "!".toList) (fun _ _ => .error "boom".toList)
      "plain *text*".toList rfl rfl (by decide)).2.2).trans (by decide)⟩
